import Mathlib

/-!
Verification of the request-gatekeeper middleware
(`frontend-auth/middleware.ts` of the ai_vc_due_diligence_agent_team frontend).

The middleware classifies each request as public or protected, redirects
unauthenticated protected requests to `/sign-in` (with the original path as a
`redirect_url` query parameter), and enforces an email-domain allow-list on
authenticated sessions, redirecting disallowed domains to `/unauthorized`.
-/

namespace Gatekeeper

/-- The three response dispositions a middleware invocation can produce:
pass-through (the handler returns `undefined`) or an HTTP redirect to a URL. -/
inductive Outcome where
  | allow : Outcome
  | redirect : String → Outcome
deriving DecidableEq, Repr

/-- The parts of the incoming request the middleware reads:
`request.nextUrl.origin` and `request.nextUrl.pathname`. -/
structure Request where
  origin : String
  pathname : String

/-- `const ALLOWED_DOMAINS = ['bionicaisolutions.com', 'zippio.ai', 'gmail.com']` -/
def ALLOWED_DOMAINS : List String := ["bionicaisolutions.com", "zippio.ai", "gmail.com"]

/-- ASCII case folding of one character: the compiled route regexes carry the
case-insensitive `i` flag, which folds the letters of the patterns. -/
def asciiLower (c : Char) : Char :=
  if 65 ≤ c.toNat ∧ c.toNat ≤ 90 then Char.ofNat (c.toNat + 32) else c

/-- ASCII case folding of a whole path. -/
def lowerStr (s : String) : String := String.mk (s.data.map asciiLower)

/-- `createRouteMatcher(['/sign-in(.*)', '/sign-up(.*)', '/unauthorized'])`
compiled with the path-to-regexp v6 defaults: matching is case-insensitive
(`i` flag), the `(.*)` patterns accept any extension of their prefix, and the
bare `/unauthorized` pattern compiles to `^\/unauthorized[\/#\?]?$`, accepting
one optional trailing delimiter character after the literal path. -/
def isPublicRoute (path : String) : Bool :=
  "/sign-in".data.isPrefixOf (lowerStr path).data ||
  "/sign-up".data.isPrefixOf (lowerStr path).data ||
  (lowerStr path = "/unauthorized" || lowerStr path = "/unauthorized/" ||
    lowerStr path = "/unauthorized#" || lowerStr path = "/unauthorized?")

/-- UTF-8 byte sequence of a character (as `Nat`s below 256). -/
def utf8Bytes (c : Char) : List Nat :=
  let n := c.toNat
  if n < 128 then [n]
  else if n < 2048 then [192 + n / 64, 128 + n % 64]
  else if n < 65536 then [224 + n / 4096, 128 + (n / 64) % 64, 128 + n % 64]
  else [240 + n / 262144, 128 + (n / 4096) % 64, 128 + (n / 64) % 64, 128 + n % 64]

/-- Upper-case hexadecimal digit for `n < 16`. -/
def hexDigit (n : Nat) : Char :=
  if n < 10 then Char.ofNat (48 + n) else Char.ofNat (55 + n)

/-- The bytes `encodeURIComponent` leaves unescaped:
`A-Z a-z 0-9 - _ . ! ~ * ' ( )`. -/
def isUnescapedByte (b : Nat) : Bool :=
  (65 ≤ b && b ≤ 90) || (97 ≤ b && b ≤ 122) || (48 ≤ b && b ≤ 57) ||
  [45, 95, 46, 33, 126, 42, 39, 40, 41].contains b

/-- Percent-encoding of one byte, as produced by `encodeURIComponent`. -/
def encodeByte (b : Nat) : String :=
  if isUnescapedByte b then String.singleton (Char.ofNat b)
  else String.mk ['%', hexDigit (b / 16), hexDigit (b % 16)]

/-- JavaScript's `encodeURIComponent`: every UTF-8 byte outside the unescaped
set is written as `%XX` with upper-case hex digits. -/
def encodeURIComponent (s : String) : String :=
  String.join ((s.data.flatMap utf8Bytes).map encodeByte)

/-- Worker for `jsSplit`: `acc` holds the current segment, reversed. -/
def splitAux (sep : Char) : List Char → List Char → List String
  | [], acc => [String.mk acc.reverse]
  | c :: cs, acc =>
      if c = sep then String.mk acc.reverse :: splitAux sep cs []
      else splitAux sep cs (c :: acc)

/-- JavaScript's `String.prototype.split` at a single-character separator:
`"a@b@c".split('@') = ["a","b","c"]`, `"a@".split('@') = ["a",""]`. -/
def jsSplit (s : String) (sep : Char) : List String :=
  splitAux sep s.data []

/-- `ALLOWED_DOMAINS.includes(emailDomain)` where `emailDomain` may be
`undefined` (indexing past the end of the split array): `includes` of
`undefined` on a string array is `false`. -/
def includes (l : List String) : Option String → Bool
  | none => false
  | some d => l.contains d

/-- JavaScript truthiness of `email : string | undefined`, the guard of
`if (email)`: `undefined` and the empty string are falsy. -/
def truthy : Option String → Bool
  | none => false
  | some s => s != ""

/-- `email.split('@')[1]` lifted to the optional email value: the second
segment of the split, `none` when the split has fewer than two segments
(JavaScript yields `undefined` there). -/
def claimedDomain : Option String → Option String
  | none => none
  | some e => (jsSplit e '@')[1]?

/-- The `clerkMiddleware` handler body. `userId` and `email` are the session
data resolved by `await auth()` (`sessionClaims?.email` is `undefined` when
there is no email claim); `if (email)` is JavaScript truthiness, so the empty
string also skips the domain check. A handler that falls through returns
`undefined`, i.e. the request passes to the application. -/
def clerkHandler (request : Request) (userId : Option String)
    (email : Option String) : Outcome :=
  if !isPublicRoute request.pathname then
    if userId.isNone then
      Outcome.redirect
        (request.origin ++ "/sign-in?redirect_url=" ++ encodeURIComponent request.pathname)
    else
      if truthy email then
        let emailDomain := claimedDomain email
        if !(includes ALLOWED_DOMAINS emailDomain) then
          Outcome.redirect (request.origin ++ "/unauthorized")
        else Outcome.allow
      else Outcome.allow
  else Outcome.allow

/-- Spec reading of the domain of an email: "everything after the first `@`",
`none` when the string has no `@`. -/
def afterFirstAt (e : String) : Option String :=
  match e.data.dropWhile (fun c => c != '@') with
  | [] => none
  | _ :: rest => some (String.mk rest)

/-- The domain the code actually compares: the segment between the first `@`
and the following `@` (or the end of the string); `none` when there is no `@`. -/
def domainBetweenAts (e : String) : Option String :=
  match e.data.dropWhile (fun c => c != '@') with
  | [] => none
  | _ :: rest => some (String.mk (rest.takeWhile (fun c => c != '@')))

/-! ## Helper lemmas -/

/-- The sign-in redirect URL and the unauthorized redirect URL are distinct for
every origin and path (their fixed parts already have different lengths). -/
theorem signin_url_ne_unauthorized_url (origin p : String) :
    origin ++ "/sign-in?redirect_url=" ++ encodeURIComponent p ≠
      origin ++ "/unauthorized" := by
  intro h
  have h2 := congrArg (fun s => s.data.length) h
  simp only [String.data_append, List.length_append] at h2
  have e1 : "/sign-in?redirect_url=".data.length = 22 := rfl
  have e2 : "/unauthorized".data.length = 13 := rfl
  rw [e1, e2] at h2
  omega

/-- The first segment produced by `splitAux` is the pending accumulator
followed by the input up to the first separator. -/
theorem splitAux_getElem_zero (sep : Char) (l : List Char) :
    ∀ acc, (splitAux sep l acc)[0]? =
      some (String.mk (acc.reverse ++ l.takeWhile (fun c => c != sep))) := by
  induction l with
  | nil => intro acc; simp [splitAux]
  | cons c cs ih =>
    intro acc
    by_cases h : c = sep
    · subst h
      simp [splitAux, List.takeWhile_cons]
    · simp [splitAux, h, List.takeWhile_cons, ih, List.reverse_cons, List.append_assoc]

/-- The second segment produced by `splitAux` is the stretch between the first
separator and the next one, and is absent when the input has no separator. -/
theorem splitAux_getElem_one (sep : Char) (l : List Char) :
    ∀ acc, (splitAux sep l acc)[1]? =
      match l.dropWhile (fun c => c != sep) with
      | [] => none
      | _ :: rest => some (String.mk (rest.takeWhile (fun c => c != sep))) := by
  induction l with
  | nil => intro acc; simp [splitAux]
  | cons c cs ih =>
    intro acc
    by_cases h : c = sep
    · subst h
      simp [splitAux, List.dropWhile_cons, splitAux_getElem_zero]
    · simp [splitAux, h, List.dropWhile_cons, ih]

/-- The domain the handler extracts is exactly the stretch of the email between
its first `@` and the following `@` or the end of the string. -/
theorem jsSplit_domain (e : String) : (jsSplit e '@')[1]? = domainBetweenAts e := by
  unfold jsSplit domainBetweenAts
  rw [splitAux_getElem_one]

/-- `Char.ofNat` of a valid code point round-trips through `toNat`. -/
theorem char_toNat_ofNat {n : Nat} (h : Nat.isValidChar n) :
    (Char.ofNat n).toNat = n := by
  unfold Char.ofNat
  rw [dif_pos h]
  rfl

/-- `asciiLower` either produces a lower-case letter or leaves its input
unchanged, so a non-letter output pins the input character. -/
theorem asciiLower_eq_nonletter {c d : Char}
    (hd : ¬(97 ≤ d.toNat ∧ d.toNat ≤ 122)) (h : asciiLower c = d) : c = d := by
  unfold asciiLower at h
  by_cases hc : 65 ≤ c.toNat ∧ c.toNat ≤ 90
  · exfalso
    apply hd
    rw [← h, if_pos hc]
    have hv : Nat.isValidChar (c.toNat + 32) := Or.inl (by omega)
    rw [char_toNat_ofNat hv]
    omega
  · rwa [if_neg hc] at h

/-- Case folding distributes over string concatenation. -/
theorem lowerStr_append (a b : String) :
    lowerStr (a ++ b) = lowerStr a ++ lowerStr b := by
  apply String.ext
  simp [lowerStr, String.data_append]

/-- A string whose case folding is empty is itself empty. -/
theorem lowerStr_eq_empty {s : String} (h : lowerStr s = "") : s = "" := by
  apply String.ext
  have h2 : s.data.map asciiLower = [] := congrArg String.data h
  exact List.map_eq_nil_iff.mp h2

/-- A string whose case folding is a single non-letter character is exactly
that one-character string. -/
theorem lowerStr_eq_single {s : String} (d : Char)
    (hd : ¬(97 ≤ d.toNat ∧ d.toNat ≤ 122)) (h : lowerStr s = String.mk [d]) :
    s = String.mk [d] := by
  have h2 : s.data.map asciiLower = [d] := congrArg String.data h
  apply String.ext
  cases hs : s.data with
  | nil => rw [hs] at h2; simp at h2
  | cons c cs =>
    rw [hs] at h2
    simp only [List.map_cons, List.cons.injEq] at h2
    obtain ⟨hcd, hcs⟩ := h2
    have hc2 : c = d := asciiLower_eq_nonletter hd hcd
    have hcs2 : cs = [] := List.map_eq_nil_iff.mp hcs
    rw [hc2, hcs2]

/-- Left cancellation for string concatenation. -/
theorem string_append_left_cancel {s a b : String} (h : s ++ a = s ++ b) :
    a = b := by
  apply String.ext
  have h2 := congrArg String.data h
  rw [String.data_append, String.data_append] at h2
  exact List.append_cancel_left h2

/-- The sign-in prefix pattern never matches a path starting with
"/unauthorized" (they differ at their second character). -/
theorem signin_not_prefix_unauth (t : String) :
    "/sign-in".data.isPrefixOf ("/unauthorized" ++ t).data = false := by
  by_contra hb
  rw [Bool.not_eq_false, List.isPrefixOf_iff_prefix] at hb
  obtain ⟨u, hu⟩ := hb
  rw [String.data_append] at hu
  have ha : "/sign-in".data = '/' :: 's' :: "ign-in".data := rfl
  have hbu : "/unauthorized".data = '/' :: 'u' :: "nauthorized".data := rfl
  rw [ha, hbu] at hu
  simp only [List.cons_append] at hu
  injection hu with _ hu2
  injection hu2 with hchar _
  exact absurd hchar (by decide)

/-- The sign-up prefix pattern never matches a path starting with
"/unauthorized" (they differ at their second character). -/
theorem signup_not_prefix_unauth (t : String) :
    "/sign-up".data.isPrefixOf ("/unauthorized" ++ t).data = false := by
  by_contra hb
  rw [Bool.not_eq_false, List.isPrefixOf_iff_prefix] at hb
  obtain ⟨u, hu⟩ := hb
  rw [String.data_append] at hu
  have ha : "/sign-up".data = '/' :: 's' :: "ign-up".data := rfl
  have hbu : "/unauthorized".data = '/' :: 'u' :: "nauthorized".data := rfl
  rw [ha, hbu] at hu
  simp only [List.cons_append] at hu
  injection hu with _ hu2
  injection hu2 with hchar _
  exact absurd hchar (by decide)

/-! ## Claim theorems -/

/-- Claim C1: on a protected (non-public) path, the handler only passes the
request through when a user identifier is present, and, whenever an email
claim is present (truthy), its extracted domain is in the allow-list: no
protected request bypasses the gate. -/
theorem protected_allow_implies_auth_and_domain (req : Request)
    (userId email : Option String)
    (hp : isPublicRoute req.pathname = false)
    (ha : clerkHandler req userId email = Outcome.allow) :
    userId.isSome = true ∧
      (truthy email = true → includes ALLOWED_DOMAINS (claimedDomain email) = true) := by
  cases userId with
  | none => simp [clerkHandler, hp] at ha
  | some u =>
    refine ⟨rfl, ?_⟩
    intro ht
    by_contra hinc
    rw [Bool.not_eq_true] at hinc
    simp [clerkHandler, hp, ht, hinc] at ha

/-- Witness for C1 at a concrete authenticated, domain-allowed request. -/
theorem protected_allow_implies_auth_and_domain_witness :
    (some "u" : Option String).isSome = true ∧
      includes ALLOWED_DOMAINS (claimedDomain (some "alice@zippio.ai")) = true := by
  have h := protected_allow_implies_auth_and_domain
    ⟨"https://a.example", "/dashboard"⟩ (some "u") (some "alice@zippio.ai")
    (by decide) (by decide)
  exact ⟨h.1, h.2 (by decide)⟩

/-- Claim C2: on a protected path with an authenticated session whose email
has a domain segment, the handler allows exactly when that domain is in the
allow-list, and otherwise redirects to the unauthorized endpoint. -/
theorem valid_session_domain_decides (origin p u e d : String)
    (hp : isPublicRoute p = false)
    (hd : claimedDomain (some e) = some d) :
    (clerkHandler ⟨origin, p⟩ (some u) (some e) = Outcome.allow ↔
      ALLOWED_DOMAINS.contains d = true) ∧
    (ALLOWED_DOMAINS.contains d = false →
      clerkHandler ⟨origin, p⟩ (some u) (some e) =
        Outcome.redirect (origin ++ "/unauthorized")) := by
  have hne : e ≠ "" := by
    intro h
    subst h
    simp [claimedDomain, jsSplit, splitAux] at hd
  have ht : truthy (some e) = true := by simp [truthy, hne]
  have hval : clerkHandler ⟨origin, p⟩ (some u) (some e) =
      (if ALLOWED_DOMAINS.contains d then Outcome.allow
       else Outcome.redirect (origin ++ "/unauthorized")) := by
    by_cases hc : ALLOWED_DOMAINS.contains d <;>
      simp [clerkHandler, hp, ht, hd, includes, hc]
  rw [hval]
  constructor
  · by_cases hc : ALLOWED_DOMAINS.contains d <;> simp [hc]
  · intro hc
    rw [hc]
    simp

/-- Witness for C2 at the disallowed-domain scenario from the spec:
a session email `bob@other.com` is redirected to the unauthorized page. -/
theorem valid_session_domain_decides_witness :
    clerkHandler ⟨"https://a.example", "/dashboard"⟩ (some "u") (some "bob@other.com") =
      Outcome.redirect ("https://a.example" ++ "/unauthorized") :=
  (valid_session_domain_decides "https://a.example" "/dashboard" "u" "bob@other.com"
    "other.com" (by decide) (by decide)).2 (by decide)

/-- Claim C3: on a protected path with no user identifier, the handler always
redirects to origin + /sign-in with the URL-encoded original path as the
redirect_url parameter, and never allows or redirects to /unauthorized. -/
theorem unauthenticated_protected_signin_redirect (origin p : String)
    (email : Option String)
    (hp : isPublicRoute p = false) :
    clerkHandler ⟨origin, p⟩ none email =
      Outcome.redirect (origin ++ "/sign-in?redirect_url=" ++ encodeURIComponent p) ∧
    clerkHandler ⟨origin, p⟩ none email ≠ Outcome.allow ∧
    clerkHandler ⟨origin, p⟩ none email ≠
      Outcome.redirect (origin ++ "/unauthorized") := by
  have h1 : clerkHandler ⟨origin, p⟩ none email =
      Outcome.redirect (origin ++ "/sign-in?redirect_url=" ++ encodeURIComponent p) := by
    simp [clerkHandler, hp]
  refine ⟨h1, ?_, ?_⟩
  · rw [h1]
    exact fun hc => Outcome.noConfusion hc
  · rw [h1]
    intro hc
    injection hc with hurl
    exact signin_url_ne_unauthorized_url origin p hurl

/-- Witness for C3, the spec scenario: a request to /dashboard with no session
is redirected to /sign-in?redirect_url=%2Fdashboard. -/
theorem unauthenticated_protected_signin_redirect_witness :
    clerkHandler ⟨"https://a.example", "/dashboard"⟩ none none =
      Outcome.redirect "https://a.example/sign-in?redirect_url=%2Fdashboard" := by
  have h := unauthenticated_protected_signin_redirect "https://a.example" "/dashboard"
    none (by decide)
  rw [h.1]
  rfl

/-- Claim C4: on a public path (sign-in, sign-up, unauthorized patterns) the
handler allows the request regardless of session state or email domain. -/
theorem public_route_always_allows (req : Request) (userId email : Option String)
    (hp : isPublicRoute req.pathname = true) :
    clerkHandler req userId email = Outcome.allow := by
  simp [clerkHandler, hp]

/-- Witness for C4: /sign-in with no session is allowed. -/
theorem public_route_always_allows_witness :
    clerkHandler ⟨"https://a.example", "/sign-in"⟩ none none = Outcome.allow :=
  public_route_always_allows ⟨"https://a.example", "/sign-in"⟩ none none (by decide)

/-- Counterexample to C5 as stated: for the email "a@gmail.com@evil",
everything after the first `@` is "gmail.com@evil", which is not in the
allow-list, yet the handler allows the request (the code compares only the
segment between the first two `@`s, here "gmail.com"). -/
theorem split_domain_counterexample :
    afterFirstAt "a@gmail.com@evil" = some "gmail.com@evil" ∧
    includes ALLOWED_DOMAINS (some "gmail.com@evil") = false ∧
    claimedDomain (some "a@gmail.com@evil") = some "gmail.com" ∧
    clerkHandler ⟨"https://a.example", "/dashboard"⟩ (some "u")
      (some "a@gmail.com@evil") = Outcome.allow := by
  decide

/-- Claim C5 (amended): the domain compared against the allow-list is the
segment of the email between the first `@` and the next `@` (or the end);
an email with no `@` yields an undefined domain, and the handler then takes
the unauthorized redirect exactly when the (possibly undefined) domain is not
in the allow-list. -/
theorem email_domain_between_first_two_ats (origin p u e : String)
    (hp : isPublicRoute p = false)
    (hne : e ≠ "") :
    claimedDomain (some e) = domainBetweenAts e ∧
    (e.data.contains '@' = false → domainBetweenAts e = none) ∧
    clerkHandler ⟨origin, p⟩ (some u) (some e) =
      (if includes ALLOWED_DOMAINS (domainBetweenAts e) then Outcome.allow
       else Outcome.redirect (origin ++ "/unauthorized")) := by
  have hdom : claimedDomain (some e) = domainBetweenAts e := jsSplit_domain e
  refine ⟨hdom, ?_, ?_⟩
  · intro hno
    have hno2 : ¬ ('@' ∈ e.data) := by simpa using hno
    have hd0 : e.data.dropWhile (fun c => c != '@') = [] := by
      rw [List.dropWhile_eq_nil_iff]
      intro x hx
      simp only [bne_iff_ne, ne_eq, decide_eq_true_eq]
      intro hxx
      subst hxx
      exact hno2 hx
    unfold domainBetweenAts
    rw [hd0]
  · have ht : truthy (some e) = true := by simp [truthy, hne]
    rw [← hdom]
    by_cases hc : includes ALLOWED_DOMAINS (claimedDomain (some e))
    · simp [clerkHandler, hp, ht, hc]
    · rw [Bool.not_eq_true] at hc
      simp [clerkHandler, hp, ht, hc]

/-- Witness for amended C5: "not-an-email" has no `@`, its domain is
undefined, and the handler redirects to /unauthorized. -/
theorem email_domain_between_first_two_ats_witness :
    domainBetweenAts "not-an-email" = none ∧
    clerkHandler ⟨"https://a.example", "/dashboard"⟩ (some "u")
      (some "not-an-email") =
      Outcome.redirect ("https://a.example" ++ "/unauthorized") := by
  have h := email_domain_between_first_two_ats "https://a.example" "/dashboard" "u"
    "not-an-email" (by decide) (by decide)
  refine ⟨h.2.1 (by decide), ?_⟩
  rw [h.2.2]
  decide

/-- Claim C6: allow-list membership is exact and case-sensitive: gmail.com is
in the allow-list, yet user@GMAIL.com is redirected to /unauthorized, and so
is a subdomain email bob@mail.gmail.com. -/
theorem allowlist_exact_case_sensitive :
    ALLOWED_DOMAINS.contains "gmail.com" = true ∧
    clerkHandler ⟨"https://a.example", "/dashboard"⟩ (some "u")
      (some "user@GMAIL.com") =
      Outcome.redirect ("https://a.example" ++ "/unauthorized") ∧
    clerkHandler ⟨"https://a.example", "/dashboard"⟩ (some "u")
      (some "bob@mail.gmail.com") =
      Outcome.redirect ("https://a.example" ++ "/unauthorized") := by
  decide

/-- Claim C7: an authenticated session with no email claim passes through on a
protected path: no domain check is performed. -/
theorem missing_email_allows (origin p u : String)
    (hp : isPublicRoute p = false) :
    clerkHandler ⟨origin, p⟩ (some u) none = Outcome.allow := by
  simp [clerkHandler, hp, truthy]

/-- Witness for C7. -/
theorem missing_email_allows_witness :
    clerkHandler ⟨"https://a.example", "/dashboard"⟩ (some "u") none =
      Outcome.allow :=
  missing_email_allows "https://a.example" "/dashboard" "u" (by decide)

/-- Claim C8: every invocation of the handler produces exactly one of the
three dispositions: allow, the sign-in redirect, or the unauthorized
redirect; the function is total, so no input is a fatal error. -/
theorem handler_total_three_outcomes (req : Request) (userId email : Option String) :
    clerkHandler req userId email = Outcome.allow ∨
    clerkHandler req userId email =
      Outcome.redirect
        (req.origin ++ "/sign-in?redirect_url=" ++ encodeURIComponent req.pathname) ∨
    clerkHandler req userId email =
      Outcome.redirect (req.origin ++ "/unauthorized") := by
  by_cases hp : isPublicRoute req.pathname
  · left
    simp [clerkHandler, hp]
  · rw [Bool.not_eq_true] at hp
    cases userId with
    | none =>
      right
      left
      simp [clerkHandler, hp]
    | some u =>
      by_cases ht : truthy email
      · by_cases hc : includes ALLOWED_DOMAINS (claimedDomain email)
        · left
          simp [clerkHandler, hp, ht, hc]
        · rw [Bool.not_eq_true] at hc
          right
          right
          simp [clerkHandler, hp, ht, hc]
      · rw [Bool.not_eq_true] at ht
        left
        simp [clerkHandler, hp, ht]

/-- Claim C9: an authenticated session whose email claim is the empty string
is treated like a missing claim (JavaScript falsiness): the handler allows
the request on a protected path without any domain check. -/
theorem empty_email_allows (origin p u : String)
    (hp : isPublicRoute p = false) :
    clerkHandler ⟨origin, p⟩ (some u) (some "") = Outcome.allow := by
  simp [clerkHandler, hp, truthy]

/-- Witness for C9. -/
theorem empty_email_allows_witness :
    clerkHandler ⟨"https://a.example", "/dashboard"⟩ (some "u") (some "") =
      Outcome.allow :=
  empty_email_allows "https://a.example" "/dashboard" "u" (by decide)

/-- Counterexample to C10 as stated: "/unauthorized/" is a strict extension of
"/unauthorized", yet the route matcher classifies it as public (the compiled
pattern accepts one optional trailing delimiter), and matching is
case-insensitive, so "/UNAUTHORIZED" is public as well. -/
theorem unauthorized_extension_public_counterexample :
    ("/unauthorized/" : String) ≠ "/unauthorized" ∧
    isPublicRoute "/unauthorized/" = true ∧
    isPublicRoute "/UNAUTHORIZED" = true := by decide

/-- Claim C10 (amended): the sign-in and sign-up patterns are prefix patterns
(every extension of them is public); the unauthorized pattern matches
/unauthorized itself and its one-delimiter extension "/unauthorized/", while
every other strict extension — any suffix besides a lone "/", "#" or "?"
delimiter — is protected. -/
theorem public_route_pattern_shapes (s : String) :
    isPublicRoute ("/sign-in" ++ s) = true ∧
    isPublicRoute ("/sign-up" ++ s) = true ∧
    isPublicRoute "/unauthorized" = true ∧
    isPublicRoute "/unauthorized/" = true ∧
    (s ≠ "" → s ≠ "/" → s ≠ "#" → s ≠ "?" →
      isPublicRoute ("/unauthorized" ++ s) = false) := by
  refine ⟨?_, ?_, by decide, by decide, ?_⟩
  · have hlit : lowerStr "/sign-in" = "/sign-in" := by decide
    have h : "/sign-in".data.isPrefixOf (lowerStr ("/sign-in" ++ s)).data = true := by
      rw [lowerStr_append, hlit, String.data_append, List.isPrefixOf_iff_prefix]
      exact List.prefix_append _ _
    simp [isPublicRoute, h]
  · have hlit : lowerStr "/sign-up" = "/sign-up" := by decide
    have h : "/sign-up".data.isPrefixOf (lowerStr ("/sign-up" ++ s)).data = true := by
      rw [lowerStr_append, hlit, String.data_append, List.isPrefixOf_iff_prefix]
      exact List.prefix_append _ _
    simp [isPublicRoute, h]
  · intro hs0 hs1 hs2 hs3
    have hlit : lowerStr "/unauthorized" = "/unauthorized" := by decide
    have hL : lowerStr ("/unauthorized" ++ s) = "/unauthorized" ++ lowerStr s := by
      rw [lowerStr_append, hlit]
    have hne1 : ¬("/unauthorized" ++ lowerStr s = "/unauthorized") := by
      intro h
      have h4 := congrArg (fun t => t.data.length) h
      simp only [String.data_append, List.length_append] at h4
      have e2 : "/unauthorized".data.length = 13 := rfl
      rw [e2] at h4
      have hlen : (lowerStr s).data.length = 0 := by omega
      exact hs0 (lowerStr_eq_empty (String.ext (List.length_eq_zero.mp hlen)))
    have hne2 : ¬("/unauthorized" ++ lowerStr s = "/unauthorized/") := by
      intro h
      have h4 : ("/unauthorized" : String) ++ lowerStr s = "/unauthorized" ++ "/" :=
        h.trans (by decide)
      have h5 : s = String.mk ['/'] :=
        lowerStr_eq_single '/' (by decide)
          ((string_append_left_cancel h4).trans (by decide))
      exact hs1 (h5.trans (by decide))
    have hne3 : ¬("/unauthorized" ++ lowerStr s = "/unauthorized#") := by
      intro h
      have h4 : ("/unauthorized" : String) ++ lowerStr s = "/unauthorized" ++ "#" :=
        h.trans (by decide)
      have h5 : s = String.mk ['#'] :=
        lowerStr_eq_single '#' (by decide)
          ((string_append_left_cancel h4).trans (by decide))
      exact hs2 (h5.trans (by decide))
    have hne4 : ¬("/unauthorized" ++ lowerStr s = "/unauthorized?") := by
      intro h
      have h4 : ("/unauthorized" : String) ++ lowerStr s = "/unauthorized" ++ "?" :=
        h.trans (by decide)
      have h5 : s = String.mk ['?'] :=
        lowerStr_eq_single '?' (by decide)
          ((string_append_left_cancel h4).trans (by decide))
      exact hs3 (h5.trans (by decide))
    have hp1 := signin_not_prefix_unauth (lowerStr s)
    have hp2 := signup_not_prefix_unauth (lowerStr s)
    unfold isPublicRoute
    rw [hL, hp1, hp2]
    simp [hne1, hne2, hne3, hne4]

/-- Witness for amended C10 at the suffix "/x": /sign-in/x is public while
/unauthorized/x is not. -/
theorem public_route_pattern_shapes_witness :
    isPublicRoute ("/sign-in" ++ "/x") = true ∧
    isPublicRoute ("/unauthorized" ++ "/x") = false :=
  ⟨(public_route_pattern_shapes "/x").1,
   (public_route_pattern_shapes "/x").2.2.2.2 (by decide) (by decide)
     (by decide) (by decide)⟩

end Gatekeeper
